import Mathlib

/-!
Verification of delete_non_priority_emails.py against its specification.

The script is sequential orchestration over an IMAP session.  We shallowly
embed it: the external collaborators (IMAP search / fetch / store / expunge /
close / logout, header decoding, console input) are modelled by an oracle
`World` whose fields give the outcome of each external call, and every
function of the script becomes a total Lean function over that oracle.  The
IMAP commands a run issues are collected into an explicit `List Action`
trace, and console output relevant to the claims into a `List LogEvent`.
-/

namespace EmailCleanup

/-- A decoded header part, mirroring what email.header.decode_header returns:
either a byte string with an optional declared charset, or an already-decoded
string. -/
inductive HeaderPart
  | bytesPart (data : List Nat) (encoding : Option String)
  | strPart (s : String)
deriving DecidableEq, Repr

/-- Oracle for the header-decoding collaborators used by decode_subject:
`decodeHeader` models email.header.decode_header; `decodeBytes enc data`
models bytes.decode(enc) and is `none` when that call raises (unknown
charset / undecodable bytes); `utf8Ignore` models the total, never-raising
bytes.decode('utf-8', errors='ignore'). -/
structure DecodeEnv where
  decodeHeader : String → List HeaderPart
  decodeBytes : String → List Nat → Option String
  utf8Ignore : List Nat → String

/-- Decoding of one header part inside the try block of decode_subject
(source lines 69-76): a bytes part with a declared encoding uses that
encoding (raising on failure, modelled as `none`); a bytes part without one
uses the permissive utf-8 decode; a str part is used as is. -/
def decodePart (env : DecodeEnv) : HeaderPart → Option String
  | .bytesPart data (some enc) => env.decodeBytes enc data
  | .bytesPart data none => some (env.utf8Ignore data)
  | .strPart s => some s

/-- The accumulation loop of decode_subject (source lines 67-76): concatenate
the decoded parts; any part whose decode raises aborts the whole try block,
modelled as `none`. -/
def decodeParts (env : DecodeEnv) : List HeaderPart → Option String
  | [] => some ""
  | p :: rest =>
    match decodePart env p, decodeParts env rest with
    | some a, some b => some (a ++ b)
    | _, _ => none

/-- decode_subject (source lines 60-80).  `none` models a Subject header that
is absent (Python None); on any exception inside the try block the except
clause returns str(subject), i.e. the raw header string itself. -/
def decode_subject (env : DecodeEnv) (subject : Option String) : String :=
  match subject with
  | none => "No Subject"
  | some s =>
    match decodeParts env (env.decodeHeader s) with
    | some d => d
    | none => s

/-- True at the parts whose declared charset decode raises, the only way a
part can make the try block of decode_subject fail. -/
def partDecodeFails (env : DecodeEnv) : HeaderPart → Bool
  | .bytesPart data (some enc) => (env.decodeBytes enc data).isNone
  | _ => false

/-! ## Configuration loading -/

/-- Minimal JSON value model for the configuration file. -/
inductive Json
  | null
  | bool (b : Bool)
  | num (n : Int)
  | str (s : String)
  | arr (xs : List Json)
  | obj (fields : List (String × Json))

/-- State of non_priority_senders.json as seen by load_non_priority_senders:
absent, present but not valid JSON, or parsed to a JSON value. -/
inductive FileState
  | missing
  | malformed
  | parsed (j : Json)

/-- How a call to load_non_priority_senders ends: a caught error printed with
a diagnostic followed by exit(1); an exception that is not caught by the
except clauses and propagates out (KeyError / TypeError from the
subscription data of the senders key); or a normal return of whatever value
sits under the senders key, unchecked. -/
inductive LoadOutcome
  | exitWithDiagnostic (code : Nat) (msg : String)
  | uncaughtException (name : String)
  | returned (v : Json)

/-- First binding of a key in a JSON object's field list. -/
def lookupField (key : String) : List (String × Json) → Option Json
  | [] => none
  | (k, v) :: rest => if k = key then some v else lookupField key rest

/-- load_non_priority_senders (source lines 43-54).  FileNotFoundError and
json.JSONDecodeError are caught and turned into a printed diagnostic plus
exit(1); the subscription of the parsed value at the senders key is not
guarded: a missing key raises KeyError and a non-object document raises
TypeError, neither of which is caught; a present value of any type is
returned as is. -/
def load_non_priority_senders : FileState → LoadOutcome
  | .missing => .exitWithDiagnostic 1 "Error: non_priority_senders.json file not found"
  | .malformed => .exitWithDiagnostic 1 "Error: Invalid JSON in non_priority_senders.json"
  | .parsed (.obj fields) =>
    match lookupField "senders" fields with
    | some v => .returned v
    | none => .uncaughtException "KeyError"
  | .parsed _ => .uncaughtException "TypeError"

/-- True on the outcomes where the loader itself prints a descriptive
diagnostic and exits non-zero, the behaviour the fail-fast requirement asks
for. -/
def isFatalDiagnosticExit : LoadOutcome → Bool
  | .exitWithDiagnostic c _ => c ≠ 0
  | _ => false

/-! ## Search criterion construction and IMAP quoting -/

/-- The criterion string built by find_emails_from_senders (source line 127):
the f-string FROM "sender" interpolates the pattern between two double
quotes with no escaping. -/
def search_criteria (sender : String) : String :=
  "FROM \"" ++ sender ++ "\""

/-- Modelled from the spec: an IMAP quoted-string reader.  Positioned just
after an opening double quote, it consumes characters up to the first
unescaped double quote, a backslash escaping the next character, and returns
the decoded content together with the remaining characters; `none` on a
string that never closes. -/
def readQuoted : List Char → List Char → Option (List Char × List Char)
  | [], _ => none
  | '\\' :: [], _ => none
  | '\\' :: d :: rest, acc => readQuoted rest (acc ++ [d])
  | '"' :: rest, acc => some (acc, rest)
  | c :: rest, acc => readQuoted rest (acc ++ [c])

/-- Modelled from the spec: a criterion safely encodes a pattern when it is
the literal FROM followed by one quoted string that decodes back to exactly
the pattern with nothing left over — i.e. no part of the pattern escapes the
quoted context to be read as further search syntax. -/
def criterionSafelyEncodes (crit : String) (sender : String) : Bool :=
  match crit.toList with
  | 'F' :: 'R' :: 'O' :: 'M' :: ' ' :: '"' :: rest =>
    readQuoted rest [] == some (sender.toList, [])
  | _ => false

/-! ## The session oracle and the action trace -/

/-- Raw message content as far as the script reads it: the three headers
extracted in find_emails_from_senders; any of them can be absent. -/
structure RawMessage where
  subject : Option String
  fromAddr : Option String
  date : Option String
deriving DecidableEq, Repr

/-- Outcome of one imap.search call: an exception, a non-OK status, or an OK
status with the returned message ids. -/
inductive SearchResult
  | err
  | notOk
  | ok (ids : List String)
deriving DecidableEq, Repr

/-- Outcome of one imap.fetch call: an exception anywhere in the per-message
try block, a non-OK status, or an OK status with the parsed message. -/
inductive FetchResult
  | err
  | notOk
  | ok (msg : RawMessage)
deriving DecidableEq, Repr

/-- Oracle fixing the outcome of every external call a run makes.  A `none`
inputLine models input() raising (e.g. EOFError), the one uncaught exception
source inside the try block of main. -/
structure World where
  env : DecodeEnv
  searchRes : String → SearchResult
  fetchRes : String → FetchResult
  markOk : String → Bool
  purgeOk : Bool
  closeOk : Bool
  logoutOk : Bool
  inputLine : Option String

/-- IMAP commands and the one console read, in the order the run issues
them. -/
inductive Action
  | search (pattern : String)
  | fetch (id : String)
  | readConfirmation
  | markDeleted (id : String)
  | purge
  | close
  | logout
deriving DecidableEq, Repr

/-- The two message-state-altering commands. -/
def isDestructive : Action → Bool
  | .markDeleted _ => true
  | .purge => true
  | _ => false

/-! ## Message locator -/

/-- One located message as appended at source lines 146-152. -/
structure LocatedMessage where
  id : String
  subject : String
  fromAddr : Option String
  date : Option String
  sender : String
deriving DecidableEq, Repr

/-- The body of the per-message try block (source lines 134-156) for one id:
on a fetched message the entry is built with the decoded subject and the
current sender pattern; a fetch exception or non-OK status contributes
nothing. -/
def locate (w : World) (sender : String) (id : String) : Option LocatedMessage :=
  match w.fetchRes id with
  | .ok m => some { id := id, subject := decode_subject w.env m.subject,
                    fromAddr := m.fromAddr, date := m.date, sender := sender }
  | _ => none

/-- Inner loop of find_emails_from_senders over the ids one search returned
(source lines 133-156), accumulating into emails_to_delete. -/
def fetchLoop (w : World) (sender : String) (acc : List LocatedMessage) :
    List String → List LocatedMessage
  | [] => acc
  | id :: rest =>
    match locate w sender id with
    | some m => fetchLoop w sender (acc ++ [m]) rest
    | none => fetchLoop w sender acc rest

/-- Outer loop of find_emails_from_senders over the sender list (source
lines 122-162): a search exception or non-OK status leaves the accumulator
untouched and continues with the next sender. -/
def findLoop (w : World) (acc : List LocatedMessage) :
    List String → List LocatedMessage
  | [] => acc
  | s :: rest =>
    match w.searchRes s with
    | .ok ids => findLoop w (fetchLoop w s acc ids) rest
    | _ => findLoop w acc rest

/-- find_emails_from_senders (source lines 116-164), returning the
emails_to_delete list. -/
def find_emails_from_senders (w : World) (senders : List String) :
    List LocatedMessage :=
  findLoop w [] senders

/-- What one sender contributes to the located-message list. -/
def contribution (w : World) (s : String) : List LocatedMessage :=
  match w.searchRes s with
  | .ok ids => ids.filterMap (locate w s)
  | _ => []

/-- The IMAP commands the locator issues: one search per sender in list
order, and one fetch per id whenever the search status was OK. -/
def find_actions (w : World) (senders : List String) : List Action :=
  senders.flatMap fun s =>
    Action.search s :: (match w.searchRes s with
      | .ok ids => ids.map Action.fetch
      | _ => [])

/-! ## Summary presenter -/

/-- Console lines of display_email_summary that the claims talk about. -/
inductive SummaryLine
  | noEmails
  | header (total : Nat)
  | senderHeader (sender : String) (count : Nat)
  | entry (idx : Nat) (subject : String)
  | more (extra : Nat)
deriving DecidableEq, Repr

/-- The numbered per-message preview lines. -/
def isEntryLine : SummaryLine → Bool
  | .entry _ _ => true
  | _ => false

/-- Subject preview built at source line 192: the first 60 characters plus
an ellipsis when the subject is longer than 60 characters, the subject
itself otherwise. -/
def truncSubject (s : String) : String :=
  if s.length > 60 then String.mk (s.data.take 60) ++ "..." else s

/-- One step of the grouping loop (source lines 180-185): append the message
to its sender's list, creating the key at the end on first sight —
Python dicts preserve insertion order. -/
def addToGroup : List (String × List LocatedMessage) → LocatedMessage →
    List (String × List LocatedMessage)
  | [], m => [(m.sender, [m])]
  | (k, ms) :: rest, m =>
    if k = m.sender then (k, ms ++ [m]) :: rest else (k, ms) :: addToGroup rest m

/-- The by_sender dict of display_email_summary as an insertion-ordered
association list. -/
def groupBySender (emails : List LocatedMessage) :
    List (String × List LocatedMessage) :=
  emails.foldl addToGroup []

/-- The numbered entry lines for the first messages of one group, indices
counting from `i` as enumerate(..., 1) does. -/
def entryLines (i : Nat) : List LocatedMessage → List SummaryLine
  | [] => []
  | m :: rest => SummaryLine.entry i (truncSubject m.subject) :: entryLines (i + 1) rest

/-- The lines one sender group prints (source lines 187-196): a header with
the group size, up to 5 numbered entries, and a remainder line when more
than 5 messages were grouped. -/
def groupLines (sender : String) (ms : List LocatedMessage) : List SummaryLine :=
  SummaryLine.senderHeader sender ms.length ::
    (entryLines 1 (ms.take 5) ++
      (if 5 < ms.length then [SummaryLine.more (ms.length - 5)] else []))

/-- display_email_summary (source lines 170-199): false with a no-emails
line on an empty input, true with the grouped preview otherwise. -/
def display_email_summary (emails : List LocatedMessage) :
    Bool × List SummaryLine :=
  match emails with
  | [] => (false, [SummaryLine.noEmails])
  | _ =>
    (true, SummaryLine.header emails.length ::
      (groupBySender emails).flatMap fun g => groupLines g.1 g.2)

/-- First-seen-order deduplication, the insertion order of a Python dict's
keys. -/
def dedupFirst (l : List String) : List String :=
  l.foldl (fun acc s => if s ∈ acc then acc else acc ++ [s]) []

/-! ## Deletion executor -/

/-- Console output of delete_emails that the claims talk about. -/
inductive LogEvent
  | deletingHeader (total : Nat)
  | progress (deleted total : Nat)
  | markError (subjectHead : String)
  | successReport (deleted : Nat)
  | failedReport (failed : Nat)
  | expungeError
deriving DecidableEq, Repr

/-- The two per-run count-report lines printed after a successful expunge. -/
def isCountReport : LogEvent → Bool
  | .successReport _ => true
  | .failedReport _ => true
  | _ => false

/-- Running state of the mark loop of delete_emails. -/
structure DelState where
  deleted : Nat
  failed : Nat
  actions : List Action
  output : List LogEvent

/-- One iteration of the mark loop (source lines 212-223): the store command
is issued either way; on success the deleted counter advances and every 10th
success prints progress; on an exception the failed counter advances and an
error line is printed. -/
def delStep (w : World) (total : Nat) (st : DelState) (m : LocatedMessage) :
    DelState :=
  if w.markOk m.id then
    { deleted := st.deleted + 1, failed := st.failed,
      actions := st.actions ++ [Action.markDeleted m.id],
      output := st.output ++
        (if (st.deleted + 1) % 10 = 0 then [LogEvent.progress (st.deleted + 1) total] else []) }
  else
    { deleted := st.deleted, failed := st.failed + 1,
      actions := st.actions ++ [Action.markDeleted m.id],
      output := st.output ++ [LogEvent.markError (String.mk (m.subject.data.take 30))] }

/-- delete_emails (source lines 205-232): mark every message in order, then
attempt one expunge; on expunge success print the success count and, when
any mark failed, the failure count; an expunge exception is caught and only
an error line is printed. -/
def delete_emails (w : World) (emails : List LocatedMessage) : DelState :=
  let st := emails.foldl (delStep w emails.length)
    { deleted := 0, failed := 0, actions := [],
      output := [LogEvent.deletingHeader emails.length] }
  if w.purgeOk then
    { st with
      actions := st.actions ++ [Action.purge]
      output := st.output ++ [LogEvent.successReport st.deleted] ++
        (if st.failed > 0 then [LogEvent.failedReport st.failed] else []) }
  else
    { st with
      actions := st.actions ++ [Action.purge]
      output := st.output ++ [LogEvent.expungeError] }

/-! ## Orchestrator -/

/-- Python str.lower character by character. -/
def pyLower (s : String) : String :=
  String.mk (s.data.map Char.toLower)

/-- Python str.strip with no argument: drop whitespace characters from both
ends. -/
def pyStrip (s : String) : String :=
  String.mk (((s.data.dropWhile Char.isWhitespace).reverse.dropWhile
    Char.isWhitespace).reverse)

/-- The confirmation test at source lines 264-266: the console line is
stripped of surrounding whitespace, lowercased and compared against y and
yes. -/
def confirmationAccepted (s : String) : Bool :=
  let c := pyLower (pyStrip s)
  c == "y" || c == "yes"

/-- The finally block of main (source lines 272-279): close is always
attempted; when it raises, the bare except swallows the error and the
logout call is never reached; when close succeeds, logout is attempted and
its errors are swallowed the same way. -/
def teardown_actions (w : World) : List Action :=
  Action.close :: (if w.closeOk then [Action.logout] else [])

/-- How the run ends: normal return, or an exception propagating out of main
after the finally block ran. -/
inductive RunOutcome
  | normal
  | raised
deriving DecidableEq, Repr

/-- A whole run: the session commands issued in order, and how it ended. -/
structure RunResult where
  trace : List Action
  outcome : RunOutcome

/-- main from the point the session is open (source lines 254-279), over the
already-loaded sender list: locate, summarize, return early when the
summary reports nothing to do, otherwise read the confirmation — input()
raising propagates after teardown — and on an accepted response run the
deletion; the finally block always appends the teardown commands. -/
def main (w : World) (senders : List String) : RunResult :=
  let emails := find_emails_from_senders w senders
  let findTr := find_actions w senders
  if (display_email_summary emails).1 = false then
    { trace := findTr ++ teardown_actions w, outcome := .normal }
  else
    match w.inputLine with
    | none =>
      { trace := findTr ++ [Action.readConfirmation] ++ teardown_actions w,
        outcome := .raised }
    | some s =>
      if confirmationAccepted s then
        { trace := findTr ++ [Action.readConfirmation] ++
            (delete_emails w emails).actions ++ teardown_actions w,
          outcome := .normal }
      else
        { trace := findTr ++ [Action.readConfirmation] ++ teardown_actions w,
          outcome := .normal }

/-! ## Concrete instances used to exercise the definitions -/

/-- Header-decoding oracle in which every byte string decodes trivially. -/
def env0 : DecodeEnv :=
  { decodeHeader := fun _ => []
    decodeBytes := fun _ _ => none
    utf8Ignore := fun _ => "" }

/-- Header-decoding oracle in which the subject raw0 declares charset bogus
and that charset's decode raises. -/
def envBogus : DecodeEnv :=
  { decodeHeader := fun s =>
      if s = "raw0" then [HeaderPart.bytesPart [200] (some "bogus")] else []
    decodeBytes := fun _ _ => none
    utf8Ignore := fun _ => "" }

/-- A plain fetched message. -/
def msgA : RawMessage :=
  { subject := some "hello", fromAddr := some "a@x", date := some "d1" }

/-- A baseline session oracle: every search finds message 1, every fetch and
mark succeeds, expunge and teardown succeed, and the operator answers n. -/
def w0 : World :=
  { env := env0
    searchRes := fun _ => .ok ["1"]
    fetchRes := fun _ => .ok msgA
    markOk := fun _ => true
    purgeOk := true
    closeOk := true
    logoutOk := true
    inputLine := some "n" }

/-- Affirmative run in which marking message 2 fails. -/
def wYes : World :=
  { w0 with
    searchRes := fun _ => .ok ["1", "2"]
    markOk := fun i => i != "2"
    inputLine := some "yes" }

/-- Run whose close call raises during teardown. -/
def wCloseFail : World :=
  { w0 with closeOk := false }

/-- Affirmative run whose final expunge raises. -/
def wPurgeFail : World :=
  { w0 with purgeOk := false, inputLine := some "y" }

/-- Locator oracle: the search for sender bad raises, the search for sender
good returns messages 1 and 2, and fetching message 2 raises. -/
def wLocator : World :=
  { w0 with
    searchRes := fun s => if s = "bad" then .err else .ok ["1", "2"]
    fetchRes := fun i => if i = "2" then .err else .ok msgA }

/-- Affirmative run with surrounding whitespace and capitals in the console
answer. -/
def wYELL : World :=
  { w0 with inputLine := some "  YES  " }

/-- Located messages used to exercise the summary presenter. -/
def mA1 : LocatedMessage :=
  { id := "1", subject := "s1", fromAddr := some "a@x", date := some "d", sender := "a" }

def mA2 : LocatedMessage :=
  { id := "2", subject := "s2", fromAddr := some "a@x", date := some "d", sender := "a" }

def mB1 : LocatedMessage :=
  { id := "3", subject := "s3", fromAddr := some "b@x", date := some "d", sender := "b" }

/-- A three-message located list over two senders, first-seen order a then
b. -/
def emails0 : List LocatedMessage :=
  [mA1, mB1, mA2]

/-! ## Subject decoding (claim C8) -/

theorem decodePart_eq_none_of_fails (env : DecodeEnv) (p : HeaderPart)
    (h : partDecodeFails env p = true) : decodePart env p = none := by
  cases p with
  | bytesPart data enc =>
    cases enc with
    | none => simp [partDecodeFails] at h
    | some e =>
      simp only [partDecodeFails, Option.isNone_iff_eq_none] at h
      simpa [decodePart] using h
  | strPart s => simp [partDecodeFails] at h

theorem decodeParts_eq_none_of_mem_fails (env : DecodeEnv) :
    ∀ (parts : List HeaderPart) (p : HeaderPart), p ∈ parts →
      partDecodeFails env p = true → decodeParts env parts = none := by
  intro parts
  induction parts with
  | nil => intro p hp; simp at hp
  | cons q rest ih =>
    intro p hp hf
    rcases List.mem_cons.mp hp with h | h
    · subst h
      simp [decodeParts, decodePart_eq_none_of_fails env p hf]
    · have hrest := ih p h hf
      simp only [decodeParts, hrest]
      cases decodePart env q <;> rfl

/-- C8: subject decoding is total: an absent header yields exactly the
placeholder No Subject; when some part's declared encoding is unsupported or
fails to decode, the whole try block fails and the non-throwing fallback
str(subject) — the raw header string itself — is returned; when every part
decodes, the declared-encoding decode of the parts is returned.  Totality is
by construction: decode_subject is a total function, so no decode error can
propagate out of subject extraction. -/
theorem decode_subject_spec (env : DecodeEnv) (s : String) :
    decode_subject env none = "No Subject" ∧
    ((∃ p ∈ env.decodeHeader s, partDecodeFails env p = true) →
      decode_subject env (some s) = s) ∧
    (∀ d, decodeParts env (env.decodeHeader s) = some d →
      decode_subject env (some s) = d) := by
  refine ⟨rfl, ?_, ?_⟩
  · rintro ⟨p, hp, hf⟩
    have h := decodeParts_eq_none_of_mem_fails env (env.decodeHeader s) p hp hf
    simp [decode_subject, h]
  · intro d hd
    simp [decode_subject, hd]

theorem decode_subject_spec_witness :
    decode_subject envBogus (some "raw0") = "raw0" :=
  (decode_subject_spec envBogus "raw0").2.1
    ⟨HeaderPart.bytesPart [200] (some "bogus"), by decide, by decide⟩

/-! ## Configuration loading (claim C7) -/

/-- C7 counterexample: a syntactically valid configuration whose senders key
holds a number — not a sequence of strings — is not rejected at load time:
the loader returns the number unchecked, and no diagnostic exit happens. -/
theorem load_senders_accepts_non_list :
    load_non_priority_senders (.parsed (.obj [("senders", .num 42)])) =
      .returned (.num 42) ∧
    isFatalDiagnosticExit
      (load_non_priority_senders (.parsed (.obj [("senders", .num 42)]))) = false :=
  ⟨rfl, rfl⟩

/-- C7 amended: loading fails fast with a descriptive diagnostic and exit
code 1 for a missing file and for malformed JSON; a parsed document without
a senders key raises an uncaught KeyError at load time rather than the
scripted diagnostic; and whatever value sits under the senders key —
sequence of strings or not — is returned unchecked, deferring any type
failure to later use. -/
theorem load_senders_outcomes :
    load_non_priority_senders .missing =
      .exitWithDiagnostic 1 "Error: non_priority_senders.json file not found" ∧
    load_non_priority_senders .malformed =
      .exitWithDiagnostic 1 "Error: Invalid JSON in non_priority_senders.json" ∧
    (∀ fields, lookupField "senders" fields = none →
      load_non_priority_senders (.parsed (.obj fields)) =
        .uncaughtException "KeyError") ∧
    (∀ fields v, lookupField "senders" fields = some v →
      load_non_priority_senders (.parsed (.obj fields)) = .returned v) := by
  refine ⟨rfl, rfl, ?_, ?_⟩
  · intro fields h
    simp [load_non_priority_senders, h]
  · intro fields v h
    simp [load_non_priority_senders, h]

theorem load_senders_outcomes_witness :
    load_non_priority_senders (.parsed (.obj [])) = .uncaughtException "KeyError" :=
  load_senders_outcomes.2.2.1 [] rfl

/-! ## Search-criterion quoting (claim C4) -/

/-- C4: the criterion builder does not escape IMAP metacharacters: for the
sender pattern a"b the transmitted criterion is FROM "a"b", whose quoted
string closes at the embedded double quote, so the tail of the pattern
escapes the quoted context as stray search syntax — the pattern is not
safely quoted/escaped. -/
theorem search_criteria_injection_on_quote :
    search_criteria "a\"b" = "FROM \"a\"b\"" ∧
    criterionSafelyEncodes (search_criteria "a\"b") "a\"b" = false :=
  ⟨by decide, by decide⟩

/-! ## Message locator (claim C6) -/

theorem fetchLoop_eq (w : World) (sender : String) :
    ∀ (ids : List String) (acc : List LocatedMessage),
      fetchLoop w sender acc ids = acc ++ ids.filterMap (locate w sender) := by
  intro ids
  induction ids with
  | nil => intro acc; simp [fetchLoop]
  | cons i rest ih =>
    intro acc
    cases h : locate w sender i with
    | some m => simp [fetchLoop, h, ih]
    | none => simp [fetchLoop, h, ih]

theorem findLoop_eq (w : World) :
    ∀ (senders : List String) (acc : List LocatedMessage),
      findLoop w acc senders = acc ++ senders.flatMap (contribution w) := by
  intro senders
  induction senders with
  | nil => intro acc; simp [findLoop]
  | cons s rest ih =>
    intro acc
    cases h : w.searchRes s with
    | ok ids => simp [findLoop, h, fetchLoop_eq, ih, contribution]
    | err => simp [findLoop, h, ih, contribution]
    | notOk => simp [findLoop, h, ih, contribution]

theorem find_emails_eq_flatMap (w : World) (senders : List String) :
    find_emails_from_senders w senders = senders.flatMap (contribution w) := by
  simpa [find_emails_from_senders] using findLoop_eq w senders []

theorem sender_of_mem_contribution (w : World) (s : String) (m : LocatedMessage)
    (h : m ∈ contribution w s) : m.sender = s := by
  unfold contribution at h
  cases hs : w.searchRes s with
  | ok ids =>
    rw [hs] at h
    rcases List.mem_filterMap.mp h with ⟨i, _, hi⟩
    unfold locate at hi
    cases hf : w.fetchRes i with
    | ok msg =>
      rw [hf] at hi
      injection hi with h2
      rw [← h2]
    | err => rw [hf] at hi; cases hi
    | notOk => rw [hf] at hi; cases hi
  | err => rw [hs] at h; simp at h
  | notOk => rw [hs] at h; simp at h

theorem filter_contribution_self (w : World) (S : String) :
    (contribution w S).filter (fun m => m.sender == S) = contribution w S :=
  List.filter_eq_self.mpr fun m hm => by
    simp [sender_of_mem_contribution w S m hm]

theorem filter_contribution_ne (w : World) (s S : String) (h : s ≠ S) :
    (contribution w s).filter (fun m => m.sender == S) = [] := by
  apply List.filter_eq_nil_iff.mpr
  intro m hm
  simp [sender_of_mem_contribution w s m hm, h]

theorem filter_flatMap_sender_search_failed (w : World) (S : String)
    (hS : w.searchRes S = .err ∨ w.searchRes S = .notOk) :
    ∀ (l : List String),
      (l.flatMap (contribution w)).filter (fun m => m.sender == S) = [] := by
  intro l
  induction l with
  | nil => simp
  | cons s rest ih =>
    simp only [List.flatMap_cons, List.filter_append, ih, List.append_nil]
    by_cases hsS : s = S
    · subst hsS
      rcases hS with h | h <;> simp [contribution, h]
    · exact filter_contribution_ne w s S hsS

theorem filter_flatMap_sender_not_mem (w : World) (S : String) :
    ∀ (l : List String), S ∉ l →
      (l.flatMap (contribution w)).filter (fun m => m.sender == S) = [] := by
  intro l
  induction l with
  | nil => simp
  | cons s rest ih =>
    intro h
    simp only [List.mem_cons, not_or] at h
    simp only [List.flatMap_cons, List.filter_append, ih h.2, List.append_nil]
    exact filter_contribution_ne w s S fun e => h.1 e.symm

theorem filter_flatMap_sender_found (w : World) (S : String) (ids : List String)
    (hok : w.searchRes S = .ok ids) :
    ∀ (l : List String), l.Nodup → S ∈ l →
      (l.flatMap (contribution w)).filter (fun m => m.sender == S) =
        ids.filterMap (locate w S) := by
  intro l
  induction l with
  | nil => intro _ h; simp at h
  | cons s rest ih =>
    intro hnd hmem
    rw [List.nodup_cons] at hnd
    simp only [List.flatMap_cons, List.filter_append]
    rcases List.mem_cons.mp hmem with h | h
    · subst h
      rw [filter_contribution_self w S, filter_flatMap_sender_not_mem w S rest hnd.1,
        List.append_nil]
      simp [contribution, hok]
    · have hsS : s ≠ S := fun e => hnd.1 (by rw [e]; exact h)
      rw [filter_contribution_ne w s S hsS, List.nil_append, ih hnd.2 h]

/-- C6: failure isolation in the locator.  The locator is the total function
find_emails_from_senders — no per-sender or per-message failure can abort it
or let an exception escape — and it equals the sender-by-sender
concatenation of contributions, so every sender after a failed one is still
processed; when the search for a sender S fails (exception or non-OK
status), the located-message list carries zero entries with sender S; and
when the search for S succeeds with ids, the entries for S are exactly the
ids whose fetch succeeded, in order — each fetch failure omits just that one
message. -/
theorem locator_failure_isolation (w : World) (senders : List String) (S : String) :
    find_emails_from_senders w senders = senders.flatMap (contribution w) ∧
    ((w.searchRes S = .err ∨ w.searchRes S = .notOk) →
      (find_emails_from_senders w senders).filter (fun m => m.sender == S) = []) ∧
    (∀ ids, senders.Nodup → S ∈ senders → w.searchRes S = .ok ids →
      (find_emails_from_senders w senders).filter (fun m => m.sender == S) =
        ids.filterMap (locate w S)) := by
  refine ⟨find_emails_eq_flatMap w senders, ?_, ?_⟩
  · intro hS
    rw [find_emails_eq_flatMap]
    exact filter_flatMap_sender_search_failed w S hS senders
  · intro ids hnd hmem hok
    rw [find_emails_eq_flatMap]
    exact filter_flatMap_sender_found w S ids hok senders hnd hmem

theorem locator_failure_isolation_witness :
    (find_emails_from_senders wLocator ["bad", "good"]).filter
      (fun m => m.sender == "bad") = [] :=
  (locator_failure_isolation wLocator ["bad", "good"] "bad").2.1 (Or.inl rfl)

/-! ## Summary presenter (claim C9) -/

theorem sum_sizes_addToGroup (m : LocatedMessage) :
    ∀ (g : List (String × List LocatedMessage)),
      (((addToGroup g m).map fun x => x.2.length).sum) =
        ((g.map fun x => x.2.length).sum) + 1 := by
  intro g
  induction g with
  | nil => simp [addToGroup]
  | cons kv rest ih =>
    obtain ⟨k, ms⟩ := kv
    by_cases h : k = m.sender
    · simp [addToGroup, h]
      omega
    · simp [addToGroup, h, ih]
      omega

theorem sum_sizes_foldl :
    ∀ (l : List LocatedMessage) (g : List (String × List LocatedMessage)),
      (((l.foldl addToGroup g).map fun x => x.2.length).sum) =
        ((g.map fun x => x.2.length).sum) + l.length := by
  intro l
  induction l with
  | nil => intro g; simp
  | cons m rest ih =>
    intro g
    simp only [List.foldl_cons, ih, sum_sizes_addToGroup, List.length_cons]
    omega

theorem sum_sizes_groupBySender (emails : List LocatedMessage) :
    (((groupBySender emails).map fun x => x.2.length).sum) = emails.length := by
  simpa [groupBySender] using sum_sizes_foldl emails []

theorem keys_addToGroup (m : LocatedMessage) :
    ∀ (g : List (String × List LocatedMessage)),
      (addToGroup g m).map Prod.fst =
        if m.sender ∈ g.map Prod.fst then g.map Prod.fst
        else g.map Prod.fst ++ [m.sender] := by
  intro g
  induction g with
  | nil => simp [addToGroup]
  | cons kv rest ih =>
    obtain ⟨k, ms⟩ := kv
    by_cases h : k = m.sender
    · simp [addToGroup, h]
    · have hne : ¬ m.sender = k := fun e => h e.symm
      by_cases hm : m.sender ∈ rest.map Prod.fst
      · simp [addToGroup, h, ih, hm, hne]
      · simp [addToGroup, h, ih, hm, hne]

theorem keys_foldl :
    ∀ (l : List LocatedMessage) (g : List (String × List LocatedMessage)),
      ((l.foldl addToGroup g).map Prod.fst) =
        (l.map fun m => m.sender).foldl
          (fun acc s => if s ∈ acc then acc else acc ++ [s]) (g.map Prod.fst) := by
  intro l
  induction l with
  | nil => intro g; simp
  | cons m rest ih =>
    intro g
    simp only [List.foldl_cons, List.map_cons]
    rw [ih, keys_addToGroup]

theorem keys_groupBySender (emails : List LocatedMessage) :
    (groupBySender emails).map Prod.fst =
      dedupFirst (emails.map fun m => m.sender) := by
  simpa [groupBySender, dedupFirst] using keys_foldl emails []

theorem countP_entryLines : ∀ (i : Nat) (l : List LocatedMessage),
    (entryLines i l).countP isEntryLine = l.length := by
  intro i l
  induction l generalizing i with
  | nil => simp [entryLines]
  | cons m rest ih => simp [entryLines, List.countP_cons, isEntryLine, ih]

theorem more_not_mem_entryLines (k : Nat) : ∀ (i : Nat) (l : List LocatedMessage),
    SummaryLine.more k ∉ entryLines i l := by
  intro i l
  induction l generalizing i with
  | nil => simp [entryLines]
  | cons m rest ih => simp [entryLines, ih]

theorem groupLines_entry_count (s : String) (ms : List LocatedMessage) :
    (groupLines s ms).countP isEntryLine = min ms.length 5 := by
  by_cases h : 5 < ms.length
  · simp [groupLines, List.countP_cons, List.countP_append, countP_entryLines,
      isEntryLine, List.length_take, h]
    omega
  · simp [groupLines, List.countP_cons, List.countP_append, countP_entryLines,
      isEntryLine, List.length_take, h]
    omega

theorem groupLines_more_iff (s : String) (ms : List LocatedMessage) :
    5 < ms.length ↔ SummaryLine.more (ms.length - 5) ∈ groupLines s ms := by
  by_cases h : 5 < ms.length
  · simp [groupLines, h]
  · simp [groupLines, h, more_not_mem_entryLines]

theorem truncSubject_spec (t : String) :
    truncSubject t =
      String.mk (t.data.take 60) ++ (if 60 < t.length then "..." else "") ∧
    (String.mk (t.data.take 60)).length ≤ 60 := by
  obtain ⟨d⟩ := t
  constructor
  · by_cases h : 60 < d.length
    · simp [truncSubject, String.length, h]
    · simp only [truncSubject, String.length, h, if_neg, gt_iff_lt, if_false]
      rw [List.take_of_length_le (Nat.le_of_not_lt h), String.append_empty]
  · show (d.take 60).length ≤ 60
    rw [List.length_take]
    exact Nat.min_le_left _ _

theorem display_false_iff (emails : List LocatedMessage) :
    (display_email_summary emails).1 = false ↔ emails = [] := by
  cases emails with
  | nil => simp [display_email_summary]
  | cons m rest => simp [display_email_summary]

/-- C9: the summary presenter returns false iff the located-message list is
empty; on a non-empty list it returns true and renders one block per sender
group; the grouping preserves first-seen sender order and its group sizes
sum to the input length; each group's block shows at most 5 entry lines —
exactly min(size, 5) — plus a remainder line carrying size - 5 exactly when
the group exceeds 5; and every displayed subject is the 60-character
character-prefix of the original with an ellipsis appended exactly when the
original exceeds 60 characters. -/
theorem summary_presenter_spec (emails : List LocatedMessage) :
    ((display_email_summary emails).1 = false ↔ emails = []) ∧
    (emails ≠ [] → (display_email_summary emails).2 =
      SummaryLine.header emails.length ::
        (groupBySender emails).flatMap fun g => groupLines g.1 g.2) ∧
    ((((groupBySender emails).map fun g => g.2.length).sum) = emails.length) ∧
    ((groupBySender emails).map Prod.fst =
      dedupFirst (emails.map fun m => m.sender)) ∧
    (∀ s ms, (s, ms) ∈ groupBySender emails →
      (groupLines s ms).countP isEntryLine = min ms.length 5 ∧
      (5 < ms.length ↔ SummaryLine.more (ms.length - 5) ∈ groupLines s ms)) ∧
    (∀ u : String, truncSubject u =
        String.mk (u.data.take 60) ++ (if 60 < u.length then "..." else "") ∧
      (String.mk (u.data.take 60)).length ≤ 60) := by
  refine ⟨display_false_iff emails, ?_, sum_sizes_groupBySender emails,
    keys_groupBySender emails, ?_, truncSubject_spec⟩
  · intro h
    cases emails with
    | nil => exact absurd rfl h
    | cons m rest => rfl
  · intro s ms _
    exact ⟨groupLines_entry_count s ms, groupLines_more_iff s ms⟩

theorem summary_presenter_spec_witness :
    (groupLines "a" [mA1, mA2]).countP isEntryLine =
      min ([mA1, mA2] : List LocatedMessage).length 5 :=
  (((summary_presenter_spec emails0).2.2.2.2.1) "a" [mA1, mA2] (by decide)).1

/-! ## Deletion executor -/

theorem delStep_actions (w : World) (total : Nat) (st : DelState)
    (m : LocatedMessage) :
    (delStep w total st m).actions = st.actions ++ [Action.markDeleted m.id] := by
  unfold delStep
  by_cases h : w.markOk m.id <;> simp [h]

theorem foldl_delStep_actions (w : World) (total : Nat) :
    ∀ (l : List LocatedMessage) (st : DelState),
      (l.foldl (delStep w total) st).actions =
        st.actions ++ l.map fun m => Action.markDeleted m.id := by
  intro l
  induction l with
  | nil => intro st; simp
  | cons m rest ih =>
    intro st
    simp [List.foldl_cons, ih, delStep_actions]

theorem delete_emails_actions (w : World) (emails : List LocatedMessage) :
    (delete_emails w emails).actions =
      (emails.map fun m => Action.markDeleted m.id) ++ [Action.purge] := by
  unfold delete_emails
  by_cases h : w.purgeOk <;> simp [h, foldl_delStep_actions]

theorem delStep_countReport (w : World) (total : Nat) (st : DelState)
    (m : LocatedMessage) :
    (delStep w total st m).output.countP isCountReport =
      st.output.countP isCountReport := by
  unfold delStep
  by_cases h : w.markOk m.id
  · by_cases h2 : (st.deleted + 1) % 10 = 0 <;>
      simp [h, h2, List.countP_append, isCountReport]
  · simp [h, List.countP_append, isCountReport]

theorem foldl_delStep_countReport (w : World) (total : Nat) :
    ∀ (l : List LocatedMessage) (st : DelState),
      (l.foldl (delStep w total) st).output.countP isCountReport =
        st.output.countP isCountReport := by
  intro l
  induction l with
  | nil => intro st; simp
  | cons m rest ih =>
    intro st
    simp [List.foldl_cons, ih, delStep_countReport]

theorem delStep_deleted (w : World) (total : Nat) (st : DelState)
    (m : LocatedMessage) :
    (delStep w total st m).deleted =
      st.deleted + (if w.markOk m.id then 1 else 0) := by
  unfold delStep
  by_cases h : w.markOk m.id <;> simp [h]

theorem foldl_delStep_deleted (w : World) (total : Nat) :
    ∀ (l : List LocatedMessage) (st : DelState),
      (l.foldl (delStep w total) st).deleted =
        st.deleted + l.countP fun m => w.markOk m.id := by
  intro l
  induction l with
  | nil => intro st; simp
  | cons m rest ih =>
    intro st
    simp [List.foldl_cons, ih, delStep_deleted, List.countP_cons]
    by_cases h : w.markOk m.id <;> simp [h]
    all_goals omega

theorem delStep_failed (w : World) (total : Nat) (st : DelState)
    (m : LocatedMessage) :
    (delStep w total st m).failed =
      st.failed + (if w.markOk m.id then 0 else 1) := by
  unfold delStep
  by_cases h : w.markOk m.id <;> simp [h]

theorem foldl_delStep_failed (w : World) (total : Nat) :
    ∀ (l : List LocatedMessage) (st : DelState),
      (l.foldl (delStep w total) st).failed =
        st.failed + l.countP fun m => !(w.markOk m.id) := by
  intro l
  induction l with
  | nil => intro st; simp
  | cons m rest ih =>
    intro st
    simp [List.foldl_cons, ih, delStep_failed, List.countP_cons]
    by_cases h : w.markOk m.id <;> simp [h]
    all_goals omega

theorem delete_emails_counts (w : World) (emails : List LocatedMessage) :
    (delete_emails w emails).deleted =
      (emails.countP fun m => w.markOk m.id) ∧
    (delete_emails w emails).failed =
      (emails.countP fun m => !(w.markOk m.id)) := by
  unfold delete_emails
  by_cases h : w.purgeOk <;>
    simp [h, foldl_delStep_deleted, foldl_delStep_failed]

theorem delete_emails_output_purge_failed (w : World) (emails : List LocatedMessage)
    (h : w.purgeOk = false) :
    (delete_emails w emails).output.countP isCountReport = 0 ∧
    LogEvent.expungeError ∈ (delete_emails w emails).output := by
  unfold delete_emails
  constructor
  · simp [h, List.countP_append, foldl_delStep_countReport, isCountReport]
  · simp [h]

/-! ## Orchestrator branch shapes -/

theorem main_eq_of_empty (w : World) (senders : List String)
    (h : find_emails_from_senders w senders = []) :
    main w senders =
      { trace := find_actions w senders ++ teardown_actions w,
        outcome := .normal } := by
  simp [main, h, display_email_summary]

theorem main_eq_of_input_raises (w : World) (senders : List String)
    (h : find_emails_from_senders w senders ≠ [])
    (hi : w.inputLine = none) :
    main w senders =
      { trace := find_actions w senders ++ [Action.readConfirmation] ++
          teardown_actions w,
        outcome := .raised } := by
  cases hE : find_emails_from_senders w senders with
  | nil => exact absurd hE h
  | cons m rest => simp [main, hE, hi, display_email_summary]

theorem main_eq_of_rejected (w : World) (senders : List String) (s : String)
    (h : find_emails_from_senders w senders ≠ [])
    (hi : w.inputLine = some s) (hc : confirmationAccepted s = false) :
    main w senders =
      { trace := find_actions w senders ++ [Action.readConfirmation] ++
          teardown_actions w,
        outcome := .normal } := by
  cases hE : find_emails_from_senders w senders with
  | nil => exact absurd hE h
  | cons m rest => simp [main, hE, hi, hc, display_email_summary]

theorem main_eq_of_accepted (w : World) (senders : List String) (s : String)
    (h : find_emails_from_senders w senders ≠ [])
    (hi : w.inputLine = some s) (hc : confirmationAccepted s = true) :
    main w senders =
      { trace := find_actions w senders ++ [Action.readConfirmation] ++
          (delete_emails w (find_emails_from_senders w senders)).actions ++
          teardown_actions w,
        outcome := .normal } := by
  cases hE : find_emails_from_senders w senders with
  | nil => exact absurd hE h
  | cons m rest => simp [main, hE, hi, hc, display_email_summary]

/-! ## Action shapes of the trace segments -/

theorem shape_mem_find_actions (w : World) (senders : List String) (a : Action)
    (ha : a ∈ find_actions w senders) :
    (∃ s, a = Action.search s) ∨ (∃ i, a = Action.fetch i) := by
  rcases List.mem_flatMap.mp ha with ⟨s, _, hs⟩
  rcases List.mem_cons.mp hs with h | h
  · exact Or.inl ⟨s, h⟩
  · cases hw : w.searchRes s with
    | ok ids =>
      rw [hw] at h
      rcases List.mem_map.mp h with ⟨i, _, hi⟩
      exact Or.inr ⟨i, hi.symm⟩
    | err => rw [hw] at h; simp at h
    | notOk => rw [hw] at h; simp at h

theorem find_actions_not_destructive (w : World) (senders : List String)
    (a : Action) (ha : a ∈ find_actions w senders) : isDestructive a = false := by
  rcases shape_mem_find_actions w senders a ha with ⟨s, e⟩ | ⟨i, e⟩ <;>
    simp [e, isDestructive]

theorem shape_mem_teardown (w : World) (a : Action)
    (ha : a ∈ teardown_actions w) : a = Action.close ∨ a = Action.logout := by
  unfold teardown_actions at ha
  rcases List.mem_cons.mp ha with h | h
  · exact Or.inl h
  · by_cases hc : w.closeOk
    · rw [if_pos hc] at h
      simp at h
      exact Or.inr h
    · rw [if_neg hc] at h
      simp at h

theorem teardown_not_destructive (w : World) (a : Action)
    (ha : a ∈ teardown_actions w) : isDestructive a = false := by
  rcases shape_mem_teardown w a ha with e | e <;> simp [e, isDestructive]

theorem delete_actions_shape (w : World) (emails : List LocatedMessage)
    (a : Action) (ha : a ∈ (delete_emails w emails).actions) :
    (∃ i, a = Action.markDeleted i) ∨ a = Action.purge := by
  rw [delete_emails_actions] at ha
  rcases List.mem_append.mp ha with h | h
  · rcases List.mem_map.mp h with ⟨m, _, hm⟩
    exact Or.inl ⟨m.id, hm.symm⟩
  · simp at h
    exact Or.inr h

/-! ## Counts of teardown commands in each segment -/

theorem count_close_find_actions (w : World) (senders : List String) :
    (find_actions w senders).count Action.close = 0 :=
  List.count_eq_zero.mpr fun hm => by
    rcases shape_mem_find_actions w senders _ hm with ⟨s, e⟩ | ⟨i, e⟩ <;> simp at e

theorem count_logout_find_actions (w : World) (senders : List String) :
    (find_actions w senders).count Action.logout = 0 :=
  List.count_eq_zero.mpr fun hm => by
    rcases shape_mem_find_actions w senders _ hm with ⟨s, e⟩ | ⟨i, e⟩ <;> simp at e

theorem count_close_delete_actions (w : World) (emails : List LocatedMessage) :
    (delete_emails w emails).actions.count Action.close = 0 :=
  List.count_eq_zero.mpr fun hm => by
    rcases delete_actions_shape w emails _ hm with ⟨i, e⟩ | e <;> simp at e

theorem count_logout_delete_actions (w : World) (emails : List LocatedMessage) :
    (delete_emails w emails).actions.count Action.logout = 0 :=
  List.count_eq_zero.mpr fun hm => by
    rcases delete_actions_shape w emails _ hm with ⟨i, e⟩ | e <;> simp at e

theorem count_close_teardown (w : World) :
    (teardown_actions w).count Action.close = 1 := by
  unfold teardown_actions
  by_cases h : w.closeOk <;> simp [h, List.count_cons]

theorem count_logout_teardown (w : World) :
    (teardown_actions w).count Action.logout = if w.closeOk then 1 else 0 := by
  unfold teardown_actions
  by_cases h : w.closeOk <;> simp [h, List.count_cons]

/-! ## Placement of an action relative to an earlier marker in a trace -/

theorem marker_mem_prefix_of_eq_append {α : Type} (y a : α) :
    ∀ (l1 xs ys l2 : List α),
      xs ++ y :: ys = l1 ++ a :: l2 → a ∉ xs → a ≠ y → y ∈ l1 := by
  intro l1
  induction l1 with
  | nil =>
    intro xs ys l2 heq hnx hny
    cases xs with
    | nil =>
      simp only [List.nil_append] at heq
      injection heq with h1 h2
      exact absurd h1.symm hny
    | cons x xs' =>
      simp only [List.cons_append, List.nil_append] at heq
      injection heq with h1 h2
      exact absurd (List.mem_cons_self a xs') (h1 ▸ hnx)
  | cons b l1' ih =>
    intro xs ys l2 heq hnx hny
    cases xs with
    | nil =>
      simp only [List.nil_append, List.cons_append] at heq
      injection heq with h1 h2
      rw [h1]
      exact List.mem_cons_self b l1'
    | cons x xs' =>
      simp only [List.cons_append] at heq
      injection heq with h1 h2
      exact List.mem_cons_of_mem b
        (ih xs' ys l2 h2 (fun hm => hnx (List.mem_cons_of_mem x hm)) hny)

/-! ## Branch corollaries for the run trace and outcome -/

theorem main_trace_empty (w : World) (senders : List String)
    (h : find_emails_from_senders w senders = []) :
    (main w senders).trace = find_actions w senders ++ teardown_actions w := by
  rw [main_eq_of_empty w senders h]

theorem main_outcome_empty (w : World) (senders : List String)
    (h : find_emails_from_senders w senders = []) :
    (main w senders).outcome = .normal := by
  rw [main_eq_of_empty w senders h]

theorem main_trace_input_raises (w : World) (senders : List String)
    (h : find_emails_from_senders w senders ≠ []) (hi : w.inputLine = none) :
    (main w senders).trace =
      find_actions w senders ++ [Action.readConfirmation] ++
        teardown_actions w := by
  rw [main_eq_of_input_raises w senders h hi]

theorem main_outcome_input_raises (w : World) (senders : List String)
    (h : find_emails_from_senders w senders ≠ []) (hi : w.inputLine = none) :
    (main w senders).outcome = .raised := by
  rw [main_eq_of_input_raises w senders h hi]

theorem main_trace_rejected (w : World) (senders : List String) (s : String)
    (h : find_emails_from_senders w senders ≠ [])
    (hi : w.inputLine = some s) (hc : confirmationAccepted s = false) :
    (main w senders).trace =
      find_actions w senders ++ [Action.readConfirmation] ++
        teardown_actions w := by
  rw [main_eq_of_rejected w senders s h hi hc]

theorem main_outcome_rejected (w : World) (senders : List String) (s : String)
    (h : find_emails_from_senders w senders ≠ [])
    (hi : w.inputLine = some s) (hc : confirmationAccepted s = false) :
    (main w senders).outcome = .normal := by
  rw [main_eq_of_rejected w senders s h hi hc]

theorem main_trace_accepted (w : World) (senders : List String) (s : String)
    (h : find_emails_from_senders w senders ≠ [])
    (hi : w.inputLine = some s) (hc : confirmationAccepted s = true) :
    (main w senders).trace =
      find_actions w senders ++ [Action.readConfirmation] ++
        (delete_emails w (find_emails_from_senders w senders)).actions ++
        teardown_actions w := by
  rw [main_eq_of_accepted w senders s h hi hc]

theorem main_outcome_accepted (w : World) (senders : List String) (s : String)
    (h : find_emails_from_senders w senders ≠ [])
    (hi : w.inputLine = some s) (hc : confirmationAccepted s = true) :
    (main w senders).outcome = .normal := by
  rw [main_eq_of_accepted w senders s h hi hc]

theorem filter_destructive_find (w : World) (senders : List String) :
    (find_actions w senders).filter isDestructive = [] :=
  List.filter_eq_nil_iff.mpr fun a ha => by
    rw [find_actions_not_destructive w senders a ha]
    simp

theorem filter_destructive_teardown (w : World) :
    (teardown_actions w).filter isDestructive = [] :=
  List.filter_eq_nil_iff.mpr fun a ha => by
    rw [teardown_not_destructive w a ha]
    simp

/-! ## Claim C1: the confirmation gate -/

/-- C1: in every run, destructive commands come only after the confirmation
read: wherever a markDeleted or purge sits in the trace, the confirmation
read precedes it; and whenever the console response — if one is read at all
— is non-affirmative, the trace contains zero markDeleted and zero purge
commands, leaving message state untouched. -/
theorem confirmation_gate (w : World) (senders : List String) :
    (∀ l1 a l2, (main w senders).trace = l1 ++ a :: l2 →
      isDestructive a = true → Action.readConfirmation ∈ l1) ∧
    ((∀ s, w.inputLine = some s → confirmationAccepted s = false) →
      (main w senders).trace.filter isDestructive = []) := by
  constructor
  · intro l1 a l2 heq hd
    have ha : a ∈ (main w senders).trace := by
      rw [heq]
      exact List.mem_append_right l1 (List.mem_cons_self a l2)
    by_cases hE : find_emails_from_senders w senders = []
    · rw [main_trace_empty w senders hE] at ha
      rcases List.mem_append.mp ha with h | h
      · rw [find_actions_not_destructive w senders a h] at hd; cases hd
      · rw [teardown_not_destructive w a h] at hd; cases hd
    · cases hi : w.inputLine with
      | none =>
        rw [main_trace_input_raises w senders hE hi] at ha
        rcases List.mem_append.mp ha with h | h
        · rcases List.mem_append.mp h with h2 | h2
          · rw [find_actions_not_destructive w senders a h2] at hd; cases hd
          · simp at h2
            rw [h2] at hd
            cases hd
        · rw [teardown_not_destructive w a h] at hd; cases hd
      | some s =>
        by_cases hc : confirmationAccepted s = true
        · rw [main_trace_accepted w senders s hE hi hc] at heq
          have hshape : find_actions w senders ++ [Action.readConfirmation] ++
              (delete_emails w (find_emails_from_senders w senders)).actions ++
              teardown_actions w =
              find_actions w senders ++ (Action.readConfirmation ::
                ((delete_emails w (find_emails_from_senders w senders)).actions ++
                  teardown_actions w)) := by
            simp
          rw [hshape] at heq
          refine marker_mem_prefix_of_eq_append Action.readConfirmation a l1
            (find_actions w senders) _ l2 heq ?_ ?_
          · intro hm
            rw [find_actions_not_destructive w senders a hm] at hd
            cases hd
          · intro e
            rw [e] at hd
            cases hd
        · have hcf : confirmationAccepted s = false := by
            simpa using hc
          rw [main_trace_rejected w senders s hE hi hcf] at ha
          rcases List.mem_append.mp ha with h | h
          · rcases List.mem_append.mp h with h2 | h2
            · rw [find_actions_not_destructive w senders a h2] at hd; cases hd
            · simp at h2
              rw [h2] at hd
              cases hd
          · rw [teardown_not_destructive w a h] at hd; cases hd
  · intro hrej
    by_cases hE : find_emails_from_senders w senders = []
    · rw [main_trace_empty w senders hE, List.filter_append,
        filter_destructive_find, filter_destructive_teardown]
      rfl
    · cases hi : w.inputLine with
      | none =>
        rw [main_trace_input_raises w senders hE hi, List.filter_append,
          List.filter_append, filter_destructive_find, filter_destructive_teardown]
        rfl
      | some s =>
        rw [main_trace_rejected w senders s hE hi (hrej s hi), List.filter_append,
          List.filter_append, filter_destructive_find, filter_destructive_teardown]
        rfl

theorem confirmation_gate_witness :
    (main w0 ["s1"]).trace.filter isDestructive = [] :=
  (confirmation_gate w0 ["s1"]).2 fun s h => by
    have h2 : some "n" = some s := h
    rw [← Option.some.inj h2]
    decide

/-! ## Claim C2: mark each located message in order, purge once at the end -/

/-- C2: given an affirmative confirmation, the run trace is exactly the
discovery commands, the confirmation read, one markDeleted per located
message in located order, then a single purge after all marks, then the
teardown — whatever subset of the individual marks the oracle makes fail. -/
theorem executor_marks_in_order_then_purges (w : World) (senders : List String)
    (s : String) (hi : w.inputLine = some s)
    (hc : confirmationAccepted s = true)
    (hne : find_emails_from_senders w senders ≠ []) :
    (main w senders).trace =
      find_actions w senders ++ [Action.readConfirmation] ++
        ((find_emails_from_senders w senders).map fun m =>
          Action.markDeleted m.id) ++
        [Action.purge] ++ teardown_actions w := by
  rw [main_trace_accepted w senders s hne hi hc, delete_emails_actions]
  simp

theorem executor_marks_in_order_then_purges_witness :
    (main wYes ["s1"]).trace =
      find_actions wYes ["s1"] ++ [Action.readConfirmation] ++
        ((find_emails_from_senders wYes ["s1"]).map fun m =>
          Action.markDeleted m.id) ++
        [Action.purge] ++ teardown_actions wYes :=
  executor_marks_in_order_then_purges wYes ["s1"] "yes" rfl (by decide) (by decide)

/-! ## Claim C10: normalization of the confirmation response -/

/-- C10: the console response is stripped of surrounding whitespace and
lowercased before comparison: with work to do, the run issues the purge —
i.e. deletion proceeds — exactly when the stripped lowercase form of the
response is y or yes, so padded or capitalized affirmatives proceed and
every other input, supersets like yes please included, cancels. -/
theorem confirmation_normalization (w : World) (senders : List String)
    (s : String) (hi : w.inputLine = some s)
    (hne : find_emails_from_senders w senders ≠ []) :
    Action.purge ∈ (main w senders).trace ↔
      (pyLower (pyStrip s) = "y" ∨ pyLower (pyStrip s) = "yes") := by
  by_cases hc : confirmationAccepted s = true
  · constructor
    · intro _
      simpa [confirmationAccepted] using hc
    · intro _
      rw [main_trace_accepted w senders s hne hi hc, delete_emails_actions]
      simp
  · have hcf : confirmationAccepted s = false := by simpa using hc
    constructor
    · intro hp
      exfalso
      rw [main_trace_rejected w senders s hne hi hcf] at hp
      rcases List.mem_append.mp hp with h | h
      · rcases List.mem_append.mp h with h2 | h2
        · rcases shape_mem_find_actions w senders _ h2 with ⟨t, e⟩ | ⟨i, e⟩ <;>
            simp at e
        · simp at h2
      · rcases shape_mem_teardown w _ h with e | e <;> simp at e
    · intro hyes
      exfalso
      apply hc
      simpa [confirmationAccepted] using hyes

theorem confirmation_normalization_witness :
    Action.purge ∈ (main wYELL ["s1"]).trace :=
  (confirmation_normalization wYELL ["s1"] "  YES  " rfl (by decide)).mpr
    (Or.inr (by decide))

/-! ## Claim C3: teardown on every exit path -/

/-- C3 counterexample: in a run whose close call raises during teardown, the
bare except swallows the error before logout is ever reached, so logout is
attempted zero times — not exactly once as claimed — even though close was
attempted exactly once. -/
theorem teardown_skips_logout_when_close_raises :
    (main wCloseFail ["s1"]).trace.count Action.logout = 0 ∧
    (main wCloseFail ["s1"]).trace.count Action.close = 1 := by
  constructor <;> decide

/-- C3 amended: on every exit path of a run that opened a session — normal
completion, nothing to do, cancellation, and the uncaught input exception —
close is attempted exactly once; logout is attempted exactly once when
close does not raise and is skipped when it does; and teardown errors are
swallowed: the run's outcome is an exception only when input() raised,
never because of a close or logout failure. -/
theorem teardown_attempts (w : World) (senders : List String) :
    (main w senders).trace.count Action.close = 1 ∧
    (main w senders).trace.count Action.logout = (if w.closeOk then 1 else 0) ∧
    ((main w senders).outcome = .raised ↔
      (find_emails_from_senders w senders ≠ [] ∧ w.inputLine = none)) := by
  have hrc1 : [Action.readConfirmation].count Action.close = 0 := by decide
  have hrc2 : [Action.readConfirmation].count Action.logout = 0 := by decide
  by_cases hE : find_emails_from_senders w senders = []
  · refine ⟨?_, ?_, ?_⟩
    · rw [main_trace_empty w senders hE, List.count_append,
        count_close_find_actions, count_close_teardown]
    · rw [main_trace_empty w senders hE, List.count_append,
        count_logout_find_actions, count_logout_teardown]
      simp
    · rw [main_outcome_empty w senders hE]
      simp [hE]
  · cases hi : w.inputLine with
    | none =>
      refine ⟨?_, ?_, ?_⟩
      · rw [main_trace_input_raises w senders hE hi, List.count_append,
          List.count_append, count_close_find_actions, count_close_teardown, hrc1]
      · rw [main_trace_input_raises w senders hE hi, List.count_append,
          List.count_append, count_logout_find_actions, count_logout_teardown, hrc2]
        simp
      · rw [main_outcome_input_raises w senders hE hi]
        simp [hE]
    | some s =>
      by_cases hc : confirmationAccepted s = true
      · refine ⟨?_, ?_, ?_⟩
        · rw [main_trace_accepted w senders s hE hi hc, List.count_append,
            List.count_append, List.count_append, count_close_find_actions,
            count_close_teardown, count_close_delete_actions, hrc1]
        · rw [main_trace_accepted w senders s hE hi hc, List.count_append,
            List.count_append, List.count_append, count_logout_find_actions,
            count_logout_teardown, count_logout_delete_actions, hrc2]
          simp
        · rw [main_outcome_accepted w senders s hE hi hc]
          simp [hi]
      · have hcf : confirmationAccepted s = false := by simpa using hc
        refine ⟨?_, ?_, ?_⟩
        · rw [main_trace_rejected w senders s hE hi hcf, List.count_append,
            List.count_append, count_close_find_actions, count_close_teardown, hrc1]
        · rw [main_trace_rejected w senders s hE hi hcf, List.count_append,
            List.count_append, count_logout_find_actions, count_logout_teardown, hrc2]
          simp
        · rw [main_outcome_rejected w senders s hE hi hcf]
          simp [hi]

/-! ## Claim C5: purge failure is non-fatal but unreported counts -/

/-- C5 counterexample: with one located message whose mark succeeds and a
failing expunge, one message was marked (deletedCount 1) yet the executor's
output holds no success-count or failure-count line at all — only the
expunge error — so the report does not distinguish marked counts from
purged: it omits the marked counts entirely. -/
theorem purge_failure_report_lacks_counts :
    (delete_emails wPurgeFail [mA1]).deleted = 1 ∧
    (delete_emails wPurgeFail [mA1]).output.countP isCountReport = 0 ∧
    LogEvent.expungeError ∈ (delete_emails wPurgeFail [mA1]).output := by
  refine ⟨by decide, by decide, by decide⟩

/-- C5 amended: a failing purge never terminates the run abnormally — the
run still completes normally whenever a confirmation line was read — and
the purge failure is reported with an expunge-error line, but the
deletedCount/failedCount report lines are printed only on purge success: on
purge failure the mark-phase counts go unreported, while every mark and the
single purge attempt still appear in the trace. -/
theorem purge_failure_nonfatal (w : World) (senders : List String) (s : String)
    (hi : w.inputLine = some s) (hp : w.purgeOk = false) :
    (main w senders).outcome = .normal ∧
    (delete_emails w (find_emails_from_senders w senders)).output.countP
      isCountReport = 0 ∧
    LogEvent.expungeError ∈
      (delete_emails w (find_emails_from_senders w senders)).output ∧
    (delete_emails w (find_emails_from_senders w senders)).actions =
      ((find_emails_from_senders w senders).map fun m =>
        Action.markDeleted m.id) ++ [Action.purge] := by
  refine ⟨?_, (delete_emails_output_purge_failed w _ hp).1,
    (delete_emails_output_purge_failed w _ hp).2, delete_emails_actions w _⟩
  by_cases hE : find_emails_from_senders w senders = []
  · exact main_outcome_empty w senders hE
  · by_cases hc : confirmationAccepted s = true
    · exact main_outcome_accepted w senders s hE hi hc
    · exact main_outcome_rejected w senders s hE hi (by simpa using hc)

theorem purge_failure_nonfatal_witness :
    (main wPurgeFail ["s1"]).outcome = .normal :=
  (purge_failure_nonfatal wPurgeFail ["s1"] "y" rfl rfl).1

end EmailCleanup
